import Mathlib

/-!
Shallow embedding of the synchronization engine of `github-to-jira-action`.

Pure functions of the TypeScript sources are translated into Lean
definitions; stateful loops become explicit recursion over the inputs they
consume; the external GitHub / Jira clients are modelled at their interface
boundary (a list of result pages, a list of per-call outcomes).  JavaScript
`number` values that the code only tests for truthiness or forwards are
modelled as `Rat` (story points) or `Int` (sprint durations); `undefined`
becomes `Option`.
-/

/- ### Data model (src/github.ts) -/

/-- Milestone sub-object of a fetched issue (`GraphQLSearchIssuesNodeMilestone`). -/
structure GraphQLSearchIssuesNodeMilestone where
  id : String
  dueOn : Option String
  closed : Option Bool
  title : String
deriving DecidableEq, Repr

/-- Sprint (iteration field) sub-object of a fetched issue
(`GraphQLSearchIssuesNodeSprint`). -/
structure GraphQLSearchIssuesNodeSprint where
  title : String
  duration : Int
  startDate : String
deriving DecidableEq, Repr

/-- One `projectItems.projects[i].project` entry of a fetched issue:
board title, board status, sprint and story-point field values, each
possibly absent. -/
structure GraphQLProjectNode where
  titleName : Option String
  statusName : Option String
  sprint : Option GraphQLSearchIssuesNodeSprint
  storyPoints : Option Rat
deriving DecidableEq, Repr

/-- One fetched source record (`GraphQLSearchIssuesNode`). -/
structure GraphQLSearchIssuesNode where
  url : String
  number : Nat
  state : String
  updatedAt : String
  body : String
  title : String
  labels : List String
  milestone : Option GraphQLSearchIssuesNodeMilestone
  projectItems : List GraphQLProjectNode
deriving DecidableEq, Repr

/- ### Batch fetcher (src/github.ts, `doGetIssuesUpdatedAfterBatch`) -/

/-- One page returned by the paginated GraphQL search: the page's records
and the `pageInfo.hasNextPage` flag. -/
structure SearchPage where
  entries : List GraphQLSearchIssuesNode
  hasNextPage : Bool
deriving DecidableEq, Repr

/-- The records of all pages a source would serve, in order. -/
def allEntries (pages : List SearchPage) : List GraphQLSearchIssuesNode :=
  (pages.map (·.entries)).flatten

/-- A well-formed page stream: at least one page, every page but the last
reports `hasNextPage = true`, and the last reports `false`. -/
def wfPages : List SearchPage → Bool
  | [] => false
  | [p] => !p.hasNextPage
  | p :: rest => p.hasNextPage && wfPages rest

/-- `GitHub.doGetIssuesUpdatedAfterBatch`: each call issues one paged query
(consuming the head of `pages`), appends the page's records to
`previousIssues`, truncates and stops as soon as the accumulated count
reaches `maxBatchNumberIssues`, otherwise recurses while the source reports
another page.  `none` models a query failure (the source has no page to
serve for the cursor). -/
def doGetIssuesUpdatedAfterBatch (maxBatchNumberIssues : Nat) :
    List SearchPage → List GraphQLSearchIssuesNode →
    Option (List GraphQLSearchIssuesNode)
  | [], _ => none
  | page :: rest, previousIssues =>
    let allGraphQlResponse := previousIssues ++ page.entries
    if maxBatchNumberIssues ≤ allGraphQlResponse.length then
      some (allGraphQlResponse.take maxBatchNumberIssues)
    else if page.hasNextPage then
      doGetIssuesUpdatedAfterBatch maxBatchNumberIssues rest allGraphQlResponse
    else
      some allGraphQlResponse

/-- Result of `GitHub.getIssuesUpdatedAfter`: the fetched issues together
with the watermark (`afterDate`) for the next run (owner / repo fields of
the source are configuration echoes and are omitted). -/
structure IssuesUpdatedAfterResult where
  afterDate : String
  issues : List GraphQLSearchIssuesNode
deriving DecidableEq, Repr

/-- `GitHub.getIssuesUpdatedAfter`: the next start date is the configured
start date, replaced by the `updatedAt` of the last fetched issue when the
fetch returned at least one issue (`issues[issues.length - 1]`). -/
def getIssuesUpdatedAfter (startDateISO : String)
    (issues : List GraphQLSearchIssuesNode) : IssuesUpdatedAfterResult :=
  let nextStartDate :=
    match issues.getLast? with
    | some lastItem => lastItem.updatedAt
    | none => startDateISO
  ⟨nextStartDate, issues⟩

/- ### Mapping resolver (src/sync-repo.ts) -/

/-- One issue-type mapping rule (`SyncYamlIssuesTypeMappingDefinition`). -/
structure SyncYamlIssuesTypeMappingDefinition where
  fromGithubLabel : String
  toJira : String
deriving DecidableEq, Repr

/-- One status mapping rule (`SyncYamStatusTypeMappingDefinition`). -/
structure SyncYamStatusTypeMappingDefinition where
  fromGithub : String
  toJira : String
deriving DecidableEq, Repr

/-- `SyncRepository.getJiraIssueTypeFromGitHubLabels`: walk the mapping
rules in order, return the first whose label the issue carries, else the
configured default. -/
def getJiraIssueTypeFromGitHubLabels
    (issueTypeMapping : List SyncYamlIssuesTypeMappingDefinition)
    (issueTypeDefault : String) (labels : List String) : String :=
  match issueTypeMapping with
  | [] => issueTypeDefault
  | mapping :: rest =>
    if labels.contains mapping.fromGithubLabel then mapping.toJira
    else getJiraIssueTypeFromGitHubLabels rest issueTypeDefault labels

/-- `SyncRepository.getJiraStatusFromGithubProject`: walk the mapping rules
in order, return the first whose GitHub status equals the input
(`===`, hence `none` never matches), else the configured default. -/
def getJiraStatusFromGithubProject
    (statusTypeMapping : List SyncYamStatusTypeMappingDefinition)
    (statusTypeDefault : String) (githubStatus : Option String) : String :=
  match statusTypeMapping with
  | [] => statusTypeDefault
  | mapping :: rest =>
    if githubStatus == some mapping.fromGithub then mapping.toJira
    else getJiraStatusFromGithubProject rest statusTypeDefault githubStatus

/- ### Release reconciliation (src/sync-repo.ts, `syncReleases`) -/

/-- Parameters of a Jira release creation (`CreateReleaseParams`). -/
structure CreateReleaseParams where
  name : String
  released : Bool
  releaseDate : Option String
deriving DecidableEq, Repr

/-- A Jira version as returned by `getReleases` (jira.js `Version` model,
restricted to the fields the code reads; all optional there). -/
structure JiraVersion where
  id : Option String
  name : Option String
  released : Option Bool
  releaseDate : Option String
deriving DecidableEq, Repr

/-- Parameters of a Jira release update (`UpdateReleaseParams`, minus the
`projectId` echo). -/
structure UpdateReleaseParams where
  id : String
  name : String
  released : Bool
  releaseDate : Option String
deriving DecidableEq, Repr

/-- `SyncRepository.fromGithubMilestoneToJiraRelease`.  `toISODay` models
`new Date(d).toISOString().split('T')[0]` (day-truncated normalization);
it is passed explicitly because JavaScript date parsing is an external
primitive. -/
def fromGithubMilestoneToJiraRelease (toISODay : String → String)
    (githubMilestone : GraphQLSearchIssuesNodeMilestone) : CreateReleaseParams :=
  { name := githubMilestone.title,
    released := githubMilestone.closed.getD false,
    releaseDate := githubMilestone.dueOn.map toISODay }

/-- Milestones of the fetched issues (`flatMap` then the two definedness
filters; `m?.id` is truthy iff the id string is non-empty). -/
def githubReleasesOf (issues : List GraphQLSearchIssuesNode) :
    List GraphQLSearchIssuesNodeMilestone :=
  (issues.filterMap (·.milestone)).filter (fun m => m.id != "")

/-- The duplicate-removal filter of `syncReleases`: keep an element iff its
index equals the index of the first element with the same title
(`findIndex` / first occurrence wins). -/
def githubReleasesWithoutDuplicates (issues : List GraphQLSearchIssuesNode) :
    List GraphQLSearchIssuesNodeMilestone :=
  let githubReleases := githubReleasesOf issues
  (githubReleases.enum.filter
    (fun mi => githubReleases.findIdx (fun m2 => m2.title == mi.2.title) == mi.1)).map (·.2)

/-- The project display name prepended to each deduplicated milestone title
(namespacing of releases in the shared destination project). -/
def githubReleasesWithProjectNamePrepended (projectName : String)
    (issues : List GraphQLSearchIssuesNode) : List GraphQLSearchIssuesNodeMilestone :=
  (githubReleasesWithoutDuplicates issues).map
    (fun release => { release with title := projectName ++ " " ++ release.title })

/-- The releases `syncReleases` creates: namespaced target releases whose
(namespaced) title is absent from the Jira release list. -/
def releasesToCreate (projectName : String) (issues : List GraphQLSearchIssuesNode)
    (jiraReleases : List JiraVersion) : List GraphQLSearchIssuesNodeMilestone :=
  (githubReleasesWithProjectNamePrepended projectName issues).filter
    (fun release => !(jiraReleases.any (fun r => r.name == some release.title)))

/-- The release updates `syncReleases` issues.  Note the source iterates
`githubReleasesWithoutDuplicates` (the titles WITHOUT the project-name
prefix) when looking up the Jira release to compare against, and skips
(`continue`) when no Jira release carries that un-prefixed name. -/
def releasesToUpdate (toISODay : String → String)
    (issues : List GraphQLSearchIssuesNode) (jiraReleases : List JiraVersion) :
    List UpdateReleaseParams :=
  (githubReleasesWithoutDuplicates issues).filterMap (fun release =>
    match jiraReleases.find? (fun r => r.name == some release.title) with
    | none => none
    | some jiraRelease =>
      let fromGithub := fromGithubMilestoneToJiraRelease toISODay release
      if jiraRelease.name ≠ some fromGithub.name ∨
         jiraRelease.released ≠ some fromGithub.released ∨
         jiraRelease.releaseDate ≠ fromGithub.releaseDate then
        some { id := jiraRelease.id.getD "", name := fromGithub.name,
               released := fromGithub.released, releaseDate := fromGithub.releaseDate }
      else none)

/- ### Sprint reconciliation (src/sync-repo.ts, `syncSprints`) -/

/-- A Jira sprint as returned by `getSprints` (jira.js `Sprint` model,
restricted to the fields the code reads). -/
structure JiraSprint where
  id : Option Nat
  name : Option String
  startDate : Option String
  endDate : Option String
deriving DecidableEq, Repr

/-- The project-item filters of `syncSprints`: items with a sprint field,
belonging to the configured GitHub project board. -/
def filteredGithubSprints (githubProject : String)
    (issues : List GraphQLSearchIssuesNode) : List GraphQLProjectNode :=
  (((issues.flatMap (·.projectItems)).filter
      (fun p => p.sprint != none)).filter
    (fun p => p.titleName == some githubProject))

/-- The sprint sub-objects of the filtered project items, keeping only
those with a truthy (non-empty) title. -/
def githubSprintsOf (githubProject : String)
    (issues : List GraphQLSearchIssuesNode) : List GraphQLSearchIssuesNodeSprint :=
  ((((filteredGithubSprints githubProject issues).filter
        (fun s => s.sprint != none)).filterMap (·.sprint)).filter
    (fun s => s.title != ""))

/-- The duplicate-removal filter of `syncSprints` (first occurrence of each
title wins, via `findIndex`). -/
def githubSprintsWithoutDuplicates (githubProject : String)
    (issues : List GraphQLSearchIssuesNode) : List GraphQLSearchIssuesNodeSprint :=
  let githubSprints := githubSprintsOf githubProject issues
  (githubSprints.enum.filter
    (fun si => githubSprints.findIdx (fun s2 => s2.title == si.2.title) == si.1)).map (·.2)

/-- The sprints `syncSprints` creates: deduplicated sprints absent from
Jira by name, and — second filter — with a truthy start date (non-empty)
and a truthy duration (non-zero). -/
def sprintsToCreateInJira (githubProject : String)
    (issues : List GraphQLSearchIssuesNode) (jiraSprints : List JiraSprint) :
    List GraphQLSearchIssuesNodeSprint :=
  ((githubSprintsWithoutDuplicates githubProject issues).filter
      (fun sprint => !(jiraSprints.any (fun j => j.name == some sprint.title)))).filter
    (fun s => s.startDate != "" && s.duration != 0)

/-- The deduplicated sprints that enter the field-by-field update
comparison of `syncSprints`: those for which a Jira sprint with the same
name exists (the loop `continue`s past the others). -/
def sprintsComparedForUpdate (githubProject : String)
    (issues : List GraphQLSearchIssuesNode) (jiraSprints : List JiraSprint) :
    List GraphQLSearchIssuesNodeSprint :=
  (githubSprintsWithoutDuplicates githubProject issues).filter
    (fun githubSprint => jiraSprints.any (fun r => r.name == some githubSprint.title))

/- ### Story points (src/sync-repo.ts lines 268/292-294, src/jira.ts line 320) -/

/-- The `storyPoints` field of the `CreateIssueParams` built by
`SyncRepository.start`: `if (storyPoints) issueToCreate.storyPoints =
storyPoints` — a `0` value is falsy, leaving the field absent. -/
def issueToCreateStoryPoints (storyPoints : Option Rat) : Option Rat :=
  match storyPoints with
  | some value => if value = 0 then none else some value
  | none => none

/-- The story-points value `Jira.createOrUpdateIssue` writes:
`createOrUpdateIssueParams.storyPoints ?? 1`. -/
def storyPointsUpdateFieldValue (storyPoints : Option Rat) : Rat :=
  storyPoints.getD 1

/- ### Call governor (src/throttle-queue.ts, `ThrottleQueue`) -/

/-- The task body pushed by `ThrottleQueue.throttle`:
`try { resolve(await fn()) } catch (err) { reject(err) }` — the caller's
promise settles with the wrapped call's own outcome. -/
def settle {ε α : Type} (outcome : Except ε α) : Except ε α :=
  match outcome with
  | Except.ok result => Except.ok result
  | Except.error err => Except.error err

/-- State of the throttle queue: the pending calls (each carrying the
outcome its wrapped function would produce), the time of the last
dispatch, the current clock, and the settled caller promises in settlement
order. -/
structure GovState (ε α : Type) where
  queue : List (Except ε α)
  lastCallTime : Int
  now : Int
  delivered : List (Except ε α)

/-- `ThrottleQueue.processQueue`: while the queue is non-empty, wait
`max(0, lastCallTime + intervalMs - now)`, record the dispatch time,
`shift()` the head task, run it (settling its caller's promise), and
recurse. -/
def processQueue {ε α : Type} (intervalMs : Int) (s : GovState ε α) : GovState ε α :=
  match h : s.queue with
  | [] => s
  | next :: restQueue =>
    let wait := max 0 (s.lastCallTime + intervalMs - s.now)
    let dispatchTime := s.now + wait
    processQueue intervalMs ⟨restQueue, dispatchTime, dispatchTime, s.delivered ++ [settle next]⟩
termination_by s.queue.length
decreasing_by simp [h]

/- ### Per-record write loop (src/sync-repo.ts, `SyncRepository.start`) -/

/-- The error shape the catch block inspects: `instanceof HttpException`
plus status / statusText / code. -/
structure HttpExceptionShape where
  isHttpException : Bool
  status : Nat
  statusText : String
  code : String
deriving DecidableEq, Repr

/-- The throttling detection of `SyncRepository.start`: an `HttpException`
with status 401, statusText "Unauthorized" and code "ERR_BAD_REQUEST". -/
def isThrottlingError (e : HttpExceptionShape) : Bool :=
  e.isHttpException && e.status == 401 && e.statusText == "Unauthorized" &&
    e.code == "ERR_BAD_REQUEST"

deriving instance DecidableEq for Except

/-- Outcomes the destination would give the two possible
`createOrUpdateIssue` calls for one record: the first attempt, and the
retry attempt issued after the 30s pause when the first failed with the
throttling shape. -/
structure IssueWriteAttempts where
  firstAttempt : Except HttpExceptionShape Unit
  retryAttempt : Except HttpExceptionShape Unit
deriving DecidableEq, Repr

/-- One iteration of the per-record try/catch of `SyncRepository.start`:
a failure is caught; if it has the throttling shape the single retry is
issued — NOT itself guarded by a catch, so the retry's outcome (success or
error) is the iteration's outcome; any other failure is only logged and
the iteration completes normally. -/
def createOrUpdateIssueWithRetry (attempts : IssueWriteAttempts) :
    Except HttpExceptionShape Unit :=
  match attempts.firstAttempt with
  | Except.ok _ => Except.ok ()
  | Except.error err =>
    if isThrottlingError err then attempts.retryAttempt
    else Except.ok ()

/-- The `for (const issue of recentIssuesSearch.issues)` loop: records are
processed sequentially; an uncaught error aborts the loop (and propagates
out of `start`).  Returns how many records the loop entered and the
uncaught error, if any. -/
def processIssuesLoop : List IssueWriteAttempts → Nat × Option HttpExceptionShape
  | [] => (0, none)
  | issue :: rest =>
    match createOrUpdateIssueWithRetry issue with
    | Except.ok _ =>
      let result := processIssuesLoop rest
      (result.1 + 1, result.2)
    | Except.error err => (1, some err)

/- ### Orchestrator (src/sync.ts, `Sync.start`) -/

/-- One configured project together with the outcome of its pass
(`SyncRepository.start` either throws, or returns the project's next
watermark `afterDate`). -/
structure ProjectPass where
  name : String
  passResult : Except Unit String
deriving DecidableEq, Repr

/-- `Sync.start`: iterate the configured projects sequentially, running
each pass with `await` and no try/catch; push `{syncProjectName,
afterDate}` on success.  Returns the names of the projects whose pass was
started, and either the aggregated results or the propagated error. -/
def syncStart : List ProjectPass → List String × Except Unit (List (String × String))
  | [] => ([], Except.ok [])
  | project :: rest =>
    match project.passResult with
    | Except.error e => ([project.name], Except.error e)
    | Except.ok afterDate =>
      let result := syncStart rest
      (project.name :: result.1,
       result.2.map (fun results => (project.name, afterDate) :: results))

/- ### Sample data used by concrete evaluations -/

/-- A minimal fetched record with the given number and update time. -/
def mkIssue (number : Nat) (updatedAt : String) : GraphQLSearchIssuesNode :=
  { url := "https://github.com/org/repo/issues", number := number, state := "OPEN",
    updatedAt := updatedAt, body := "body", title := "title", labels := [],
    milestone := none, projectItems := [] }

/-- The exact error shape `SyncRepository.start` treats as throttling. -/
def throttlingShape : HttpExceptionShape :=
  { isHttpException := true, status := 401, statusText := "Unauthorized",
    code := "ERR_BAD_REQUEST" }

/- ### Theorems for the claims -/

def c1Issue : GraphQLSearchIssuesNode := mkIssue 1 "2024-01-05T10:00:00Z"

def c1Pages : List SearchPage := [⟨[c1Issue], false⟩]

/-- Claim C1: the claim states that with `maxBatchSize = 0` the batch
fetcher consumes all available pages and returns every record the source
reports.  The code does the opposite: `length >= 0` holds already after
the first page, so the accumulated batch is truncated to
`slice(0, 0) = []`.  On a source serving one page with one record the
fetcher returns the empty list, not the record. -/
theorem c1_zero_batch_size_caps_to_empty :
    doGetIssuesUpdatedAfterBatch 0 c1Pages [] = some []
    ∧ wfPages c1Pages = true
    ∧ allEntries c1Pages = [c1Issue]
    ∧ some ([] : List GraphQLSearchIssuesNode) ≠ some [c1Issue] := by decide

def c2Projects : List ProjectPass :=
  [{ name := "A", passResult := Except.error () },
   { name := "B", passResult := Except.ok "2024-01-05T00:00:00Z" }]

/-- Claim C2, counterexample: with project A failing and project B
configured after it, only A's pass is started — B is never attempted and
the error propagates, so the claim that every remaining project is still
attempted is false on the code. -/
theorem c2_failed_project_halts_counterexample :
    (syncStart c2Projects).1 = ["A"]
    ∧ "B" ∉ (syncStart c2Projects).1
    ∧ (syncStart c2Projects).2 = Except.error () := by decide

/-- Claim C2, amended: `Sync.start` runs each project's pass with no
try/catch, so the first failing pass is the last one started: the error
propagates out of `Sync.start` and no per-project watermark list is
returned (results of earlier successful projects are discarded with the
thrown error); on a successful pass the loop continues with the rest. -/
theorem c2_orchestrator_aborts_on_failure (name afterDate : String)
    (rest : List ProjectPass) :
    syncStart ({ name := name, passResult := Except.error () } :: rest)
      = ([name], Except.error ())
    ∧ syncStart ({ name := name, passResult := Except.ok afterDate } :: rest)
      = (name :: (syncStart rest).1,
         (syncStart rest).2.map (fun results => (name, afterDate) :: results)) :=
  ⟨rfl, rfl⟩

def c3Records : List IssueWriteAttempts :=
  [{ firstAttempt := Except.error throttlingShape,
     retryAttempt := Except.error throttlingShape },
   { firstAttempt := Except.ok (), retryAttempt := Except.ok () }]

/-- Claim C3, counterexample: the first record fails with the throttling
shape and its retry fails again; the claim says the record alone is
skipped and the remaining records still process, but the retry call is not
guarded by the catch, so its error propagates: only 1 of the 2 records is
processed and the loop aborts with the uncaught error. -/
theorem c3_retry_failure_aborts_counterexample :
    processIssuesLoop c3Records = (1, some throttlingShape)
    ∧ processIssuesLoop c3Records ≠ (c3Records.length, none) := by decide

/-- Claim C3, amended: on a throttling-shaped failure (HTTP 401
Unauthorized, ERR_BAD_REQUEST) the engine retries the single write exactly
once; if the retry succeeds the loop continues with the remaining records,
but if the retry also fails its error propagates and aborts the remaining
records of the batch.  Only a NON-throttling-shaped first failure is
logged and skipped with the remaining records still processing. -/
theorem c3_throttle_retry_behavior (rest : List IssueWriteAttempts)
    (eRetry e : HttpExceptionShape) (retryAttempt : Except HttpExceptionShape Unit) :
    processIssuesLoop ({ firstAttempt := Except.error throttlingShape,
                         retryAttempt := Except.error eRetry } :: rest)
      = (1, some eRetry)
    ∧ processIssuesLoop ({ firstAttempt := Except.error throttlingShape,
                           retryAttempt := Except.ok () } :: rest)
      = ((processIssuesLoop rest).1 + 1, (processIssuesLoop rest).2)
    ∧ (isThrottlingError e = false →
        processIssuesLoop ({ firstAttempt := Except.error e,
                             retryAttempt := retryAttempt } :: rest)
          = ((processIssuesLoop rest).1 + 1, (processIssuesLoop rest).2)) := by
  refine ⟨rfl, rfl, fun he => ?_⟩
  simp [processIssuesLoop, createOrUpdateIssueWithRetry, he]

def c3OtherShape : HttpExceptionShape :=
  { isHttpException := true, status := 500, statusText := "Server Error", code := "E" }

/-- Witness for the amended claim C3 at a concrete input: a
non-throttling failure of a single record is caught and the loop finishes
normally. -/
theorem c3_throttle_retry_behavior_witness :
    processIssuesLoop ({ firstAttempt := Except.error c3OtherShape,
                         retryAttempt := Except.ok () } :: ([] : List IssueWriteAttempts))
      = ((processIssuesLoop []).1 + 1, (processIssuesLoop []).2) :=
  (c3_throttle_retry_behavior [] throttlingShape c3OtherShape (Except.ok ())).2.2 (by decide)

def c5Milestone : GraphQLSearchIssuesNodeMilestone :=
  { id := "MI_1", dueOn := none, closed := some true, title := "v2.0" }

def c5Issue : GraphQLSearchIssuesNode :=
  { mkIssue 2 "2024-01-06T00:00:00Z" with milestone := some c5Milestone }

def c5JiraReleases : List JiraVersion :=
  [{ id := some "10", name := some "Prj v2.0", released := some false, releaseDate := none }]

/-- Claim C5: during release reconciliation the target release derived
from milestone "v2.0" of project "Prj" is the namespaced "Prj v2.0"; the
destination holds a release under exactly that name whose released flag
differs (false vs true).  The claim says an update of that destination
release is issued; the code's update loop looks the destination release up
by the UN-prefixed title "v2.0", finds nothing, and issues neither an
update nor a create — the differing release is silently left alone. -/
theorem c5_namespaced_release_update_missed :
    (githubReleasesWithProjectNamePrepended "Prj" [c5Issue]).map (·.title) = ["Prj v2.0"]
    ∧ c5JiraReleases.any (fun r => r.name == some "Prj v2.0") = true
    ∧ (fromGithubMilestoneToJiraRelease (fun d => d) c5Milestone).released = true
    ∧ c5JiraReleases.map (·.released) = [some false]
    ∧ releasesToCreate "Prj" [c5Issue] c5JiraReleases = []
    ∧ releasesToUpdate (fun d => d) [c5Issue] c5JiraReleases = [] := by decide

/-- Claim C6: both resolvers return the value of the first rule in table
order whose match condition holds (label-set membership for issue types,
exact equality for statuses) and the table's configured default when no
rule matches; being total Lean functions of their inputs, they never fail
and have no side effects. -/
theorem c6_mapping_first_match_or_default
    (issueTypeMapping : List SyncYamlIssuesTypeMappingDefinition)
    (issueTypeDefault : String) (labels : List String)
    (statusTypeMapping : List SyncYamStatusTypeMappingDefinition)
    (statusTypeDefault : String) (githubStatus : Option String) :
    getJiraIssueTypeFromGitHubLabels issueTypeMapping issueTypeDefault labels
      = (match issueTypeMapping.find? (fun m => labels.contains m.fromGithubLabel) with
         | some m => m.toJira
         | none => issueTypeDefault)
    ∧ getJiraStatusFromGithubProject statusTypeMapping statusTypeDefault githubStatus
      = (match statusTypeMapping.find? (fun m => githubStatus == some m.fromGithub) with
         | some m => m.toJira
         | none => statusTypeDefault) := by
  constructor
  · induction issueTypeMapping with
    | nil => rfl
    | cons mapping rest ih =>
      by_cases hmem : mapping.fromGithubLabel ∈ labels
      · simp [getJiraIssueTypeFromGitHubLabels, List.find?, hmem]
      · simp [getJiraIssueTypeFromGitHubLabels, List.find?, hmem, ih]
  · induction statusTypeMapping with
    | nil => rfl
    | cons mapping rest ih =>
      by_cases heq : githubStatus = some mapping.fromGithub
      · have hb : (githubStatus == some mapping.fromGithub) = true := by simp [heq]
        simp [getJiraStatusFromGithubProject, List.find?, hb]
      · have hb : (githubStatus == some mapping.fromGithub) = false := by simp [heq]
        simp [getJiraStatusFromGithubProject, List.find?, hb, ih]

/-- Helper for claim C8: drains of the throttle queue settle the pending
calls in queue (FIFO) order, appending to the already-delivered list. -/
theorem processQueue_delivered_eq {ε α : Type} (intervalMs : Int) :
    ∀ (q : List (Except ε α)) (lastCallTime now : Int)
      (delivered : List (Except ε α)),
    (processQueue intervalMs ⟨q, lastCallTime, now, delivered⟩).delivered
      = delivered ++ q.map settle := by
  intro q
  induction q with
  | nil =>
    intro lastCallTime now delivered
    rw [processQueue]
    simp
  | cons next restQueue ih =>
    intro lastCallTime now delivered
    rw [processQueue]
    simp only [ih, settle, List.map_cons, List.append_assoc, List.singleton_append]

/-- Claim C8: the Call Governor settles the caller promises in strict FIFO
order of enqueueing, and each caller receives the wrapped call's own
outcome — `settle` maps a success to the same success and a failure to the
same failure, so timing and ordering are all the governor may change. -/
theorem c8_governor_fifo_outcome_preserving {ε α : Type} (intervalMs : Int)
    (s : GovState ε α) :
    (processQueue intervalMs s).delivered = s.delivered ++ s.queue.map settle
    ∧ (∀ v : α, settle (Except.ok v : Except ε α) = Except.ok v)
    ∧ (∀ e : ε, settle (Except.error e : Except ε α) = Except.error e) := by
  refine ⟨?_, fun v => rfl, fun e => rfl⟩
  obtain ⟨q, lastCallTime, now, delivered⟩ := s
  exact processQueue_delivered_eq intervalMs q lastCallTime now delivered

/-- Claim C9: a source story-point value of exactly 0 is falsy in the
`if (storyPoints)` guard, so the field is left absent and the destination
write defaults it to 1 — the same value an absent source field yields —
while any nonzero value is passed through unchanged. -/
theorem c9_story_points_zero_defaults_to_one (value : Rat) :
    storyPointsUpdateFieldValue (issueToCreateStoryPoints (some 0)) = 1
    ∧ storyPointsUpdateFieldValue (issueToCreateStoryPoints none) = 1
    ∧ (value ≠ 0 →
        storyPointsUpdateFieldValue (issueToCreateStoryPoints (some value)) = value) := by
  refine ⟨rfl, rfl, fun hv => ?_⟩
  simp [issueToCreateStoryPoints, storyPointsUpdateFieldValue, hv]

/-- Witness for claim C9 at a concrete nonzero story-point value. -/
theorem c9_story_points_zero_defaults_to_one_witness :
    storyPointsUpdateFieldValue (issueToCreateStoryPoints (some 2)) = 2 :=
  (c9_story_points_zero_defaults_to_one 2).2.2 (by norm_num)

/-- Helper: a list whose `getLast?` is `some a` contains `a`. -/
theorem mem_of_getLast?_eq {α : Type} {l : List α} {a : α}
    (h : l.getLast? = some a) : a ∈ l := by
  rcases List.mem_getLast?_eq_getLast (Option.mem_def.mpr h) with ⟨hne, rfl⟩
  exact List.getLast_mem hne

/-- Helper for claim C4: in a fetch result sorted ascending by update
time, every record's `updatedAt` is bounded by the last record's. -/
theorem mem_le_getLast {l : List GraphQLSearchIssuesNode}
    {lastItem : GraphQLSearchIssuesNode}
    (hs : l.Pairwise (fun a b => a.updatedAt ≤ b.updatedAt))
    (hl : l.getLast? = some lastItem) :
    ∀ i ∈ l, i.updatedAt ≤ lastItem.updatedAt := by
  induction l with
  | nil => simp at hl
  | cons x xs ih =>
    cases xs with
    | nil =>
      have hx : x = lastItem := by simpa using hl
      subst hx
      intro i hi
      have : i = x := by simpa using hi
      subst this
      exact le_refl _
    | cons y ys =>
      have hl2 : (y :: ys).getLast? = some lastItem := by
        rwa [List.getLast?_cons_cons] at hl
      rcases List.pairwise_cons.mp hs with ⟨hx, hrest⟩
      intro i hi
      rcases List.mem_cons.mp hi with rfl | hi2
      · exact hx lastItem (mem_of_getLast?_eq hl2)
      · exact ih hrest hl2 i hi2

/-- Claim C4: for a fetch result sorted ascending by update time whose
records all carry `updatedAt ≥` the input watermark, the produced
watermark is ≥ the input watermark and equals the latest `updatedAt` among
the fetched records (it is one of them and bounds them all); an empty
fetch result leaves the watermark unchanged. -/
theorem c4_watermark_monotone (startDateISO : String)
    (issues : List GraphQLSearchIssuesNode)
    (hsorted : issues.Pairwise (fun a b => a.updatedAt ≤ b.updatedAt))
    (hge : ∀ i ∈ issues, startDateISO ≤ i.updatedAt) :
    startDateISO ≤ (getIssuesUpdatedAfter startDateISO issues).afterDate
    ∧ (issues = [] →
        (getIssuesUpdatedAfter startDateISO issues).afterDate = startDateISO)
    ∧ (issues ≠ [] →
        (getIssuesUpdatedAfter startDateISO issues).afterDate
          ∈ issues.map (·.updatedAt)
        ∧ ∀ i ∈ issues,
            i.updatedAt ≤ (getIssuesUpdatedAfter startDateISO issues).afterDate) := by
  cases hl : issues.getLast? with
  | none =>
    have hnil : issues = [] := by rwa [List.getLast?_eq_none_iff] at hl
    subst hnil
    exact ⟨le_refl _, fun _ => rfl, fun hne => absurd rfl hne⟩
  | some lastItem =>
    have hmem : lastItem ∈ issues := mem_of_getLast?_eq hl
    have hAfter : (getIssuesUpdatedAfter startDateISO issues).afterDate
        = lastItem.updatedAt := by
      simp [getIssuesUpdatedAfter, hl]
    refine ⟨?_, ?_, fun _ => ⟨?_, ?_⟩⟩
    · rw [hAfter]; exact hge lastItem hmem
    · intro hnil; subst hnil; simp at hl
    · rw [hAfter]; exact List.mem_map_of_mem _ hmem
    · intro i hi; rw [hAfter]; exact mem_le_getLast hsorted hl i hi

def c4Issue : GraphQLSearchIssuesNode := mkIssue 3 "2024-01-05T00:00:00Z"

/-- Witness for claim C4 at a concrete one-record fetch result. -/
theorem c4_watermark_monotone_witness :
    "2024-01-05T00:00:00Z"
      ≤ (getIssuesUpdatedAfter "2024-01-05T00:00:00Z" [c4Issue]).afterDate
    ∧ ([c4Issue] = ([] : List GraphQLSearchIssuesNode) →
        (getIssuesUpdatedAfter "2024-01-05T00:00:00Z" [c4Issue]).afterDate
          = "2024-01-05T00:00:00Z")
    ∧ ([c4Issue] ≠ ([] : List GraphQLSearchIssuesNode) →
        (getIssuesUpdatedAfter "2024-01-05T00:00:00Z" [c4Issue]).afterDate
          ∈ [c4Issue].map (·.updatedAt)
        ∧ ∀ i ∈ [c4Issue],
            i.updatedAt
              ≤ (getIssuesUpdatedAfter "2024-01-05T00:00:00Z" [c4Issue]).afterDate) :=
  c4_watermark_monotone "2024-01-05T00:00:00Z" [c4Issue] (by simp)
    (by simp [c4Issue, mkIssue])

/-- Helper: `allEntries` distributes over the head page. -/
theorem allEntries_cons (page : SearchPage) (rest : List SearchPage) :
    allEntries (page :: rest) = page.entries ++ allEntries rest := by
  simp [allEntries]

/-- Helper for claim C7: on a well-formed page stream the batch fetcher
returns exactly the first `maxBatchNumberIssues` accumulated records (all
of them when fewer are available). -/
theorem doGetIssuesUpdatedAfterBatch_wf_take (maxBatchNumberIssues : Nat) :
    ∀ (pages : List SearchPage) (previousIssues : List GraphQLSearchIssuesNode),
    wfPages pages = true →
    doGetIssuesUpdatedAfterBatch maxBatchNumberIssues pages previousIssues
      = some ((previousIssues ++ allEntries pages).take maxBatchNumberIssues) := by
  intro pages
  induction pages with
  | nil => intro prev hwf; simp [wfPages] at hwf
  | cons page rest ih =>
    intro prev hwf
    rw [doGetIssuesUpdatedAfterBatch]
    by_cases hlen : maxBatchNumberIssues ≤ (prev ++ page.entries).length
    · rw [if_pos hlen]
      rw [allEntries_cons, ← List.append_assoc,
        List.take_append_of_le_length hlen]
    · rw [if_neg hlen]
      cases hnext : page.hasNextPage with
      | true =>
        cases rest with
        | nil => simp [wfPages, hnext] at hwf
        | cons q t =>
          have hwrest : wfPages (q :: t) = true := by
            have : wfPages (page :: q :: t)
                = (page.hasNextPage && wfPages (q :: t)) := rfl
            rw [this, hnext, Bool.true_and] at hwf
            exact hwf
          simp only [if_true]
          rw [ih (prev ++ page.entries) hwrest]
          simp [allEntries_cons, List.append_assoc]
      | false =>
        cases rest with
        | cons q t =>
          have : wfPages (page :: q :: t)
              = (page.hasNextPage && wfPages (q :: t)) := rfl
          rw [this, hnext, Bool.false_and] at hwf
          exact absurd hwf (by simp)
        | nil =>
          simp only [Bool.false_eq_true, if_false]
          have hle : (prev ++ page.entries).length ≤ maxBatchNumberIssues :=
            le_of_lt (lt_of_not_le hlen)
          rw [allEntries_cons]
          simp [allEntries, List.take_of_length_le hle]

/-- Claim C7: with `maxBatchSize = N > 0` and a well-formed page stream,
the batch fetcher returns exactly the first N available records — at most
N records, and exactly N whenever at least N are available (truncating and
stopping as soon as the accumulated count reaches N). -/
theorem c7_batch_cap (maxBatchNumberIssues : Nat) (pages : List SearchPage)
    (hpos : 0 < maxBatchNumberIssues) (hwf : wfPages pages = true) :
    doGetIssuesUpdatedAfterBatch maxBatchNumberIssues pages []
      = some ((allEntries pages).take maxBatchNumberIssues)
    ∧ ((allEntries pages).take maxBatchNumberIssues).length ≤ maxBatchNumberIssues
    ∧ (maxBatchNumberIssues ≤ (allEntries pages).length →
        ((allEntries pages).take maxBatchNumberIssues).length
          = maxBatchNumberIssues) := by
  refine ⟨?_, ?_, fun hle => ?_⟩
  · have h := doGetIssuesUpdatedAfterBatch_wf_take maxBatchNumberIssues pages [] hwf
    simpa using h
  · simp [List.length_take]
  · simp [List.length_take, hle]

def c7Pages : List SearchPage :=
  [⟨[mkIssue 1 "2024-01-02T00:00:00Z", mkIssue 2 "2024-01-03T00:00:00Z"], true⟩,
   ⟨[mkIssue 3 "2024-01-04T00:00:00Z"], false⟩]

/-- Witness for claim C7: a source with 3 records across 2 pages and a
batch cap of 2. -/
theorem c7_batch_cap_witness :
    doGetIssuesUpdatedAfterBatch 2 c7Pages []
      = some ((allEntries c7Pages).take 2)
    ∧ ((allEntries c7Pages).take 2).length ≤ 2
    ∧ (2 ≤ (allEntries c7Pages).length →
        ((allEntries c7Pages).take 2).length = 2) :=
  c7_batch_cap 2 c7Pages (by decide) (by decide)

/-- Claim C10: a deduplicated source sprint whose start date is empty or
whose duration is 0 never makes it into the create list (the second filter
of `sprintsToCreateInJira` rejects it) even when no Jira sprint with its
name exists, yet it still enters the update comparison whenever a Jira
sprint with the same name does exist. -/
theorem c10_sprint_create_guard (githubProject : String)
    (issues : List GraphQLSearchIssuesNode) (jiraSprints : List JiraSprint)
    (s : GraphQLSearchIssuesNodeSprint)
    (hmem : s ∈ githubSprintsWithoutDuplicates githubProject issues)
    (hbad : s.startDate = "" ∨ s.duration = 0) :
    s ∉ sprintsToCreateInJira githubProject issues jiraSprints
    ∧ (jiraSprints.any (fun j => j.name == some s.title) = true →
        s ∈ sprintsComparedForUpdate githubProject issues jiraSprints) := by
  constructor
  · intro hin
    have hcond := (List.mem_filter.mp hin).2
    rcases hbad with hb | hb <;> simp [hb] at hcond
  · intro hany
    exact List.mem_filter.mpr ⟨hmem, hany⟩

def c10Sprint : GraphQLSearchIssuesNodeSprint :=
  { title := "Sprint 1", duration := 0, startDate := "" }

def c10Issue : GraphQLSearchIssuesNode :=
  { mkIssue 4 "2024-01-07T00:00:00Z" with
    projectItems := [{ titleName := some "Board", statusName := some "Todo",
                       sprint := some c10Sprint, storyPoints := none }] }

def c10JiraSprints : List JiraSprint :=
  [{ id := some 5, name := some "Sprint 1",
     startDate := some "2024-01-01T00:00:00Z",
     endDate := some "2024-01-15T00:00:00Z" }]

/-- Witness for claim C10: a sprint with empty start date and zero
duration, present on the configured board and matched by name in Jira. -/
theorem c10_sprint_create_guard_witness :
    c10Sprint ∉ sprintsToCreateInJira "Board" [c10Issue] c10JiraSprints
    ∧ (c10JiraSprints.any (fun j => j.name == some c10Sprint.title) = true →
        c10Sprint ∈ sprintsComparedForUpdate "Board" [c10Issue] c10JiraSprints) :=
  c10_sprint_create_guard "Board" [c10Issue] c10JiraSprints c10Sprint
    (by decide) (by decide)
